import Mathlib

set_option maxRecDepth 10000

/-!
# Verification of the championship-clubs-finance data-access layer

Shallow embedding of the core logic of the repository:

* the response cache (`getCachedData` / `setCachedData` / `clearCache` and the
  `clubsApi` facade) from `src/unnamed/part_005`,
* the tier classifier `getDataTier`, the metrics engine `calculateMetrics`
  and the revenue breakdown `calculateRevenuePercentages` from
  `src/frontend/src/components/ClubDetail.js`,
* the slug transform `clubNameToSlug` from
  `src/frontend/src/utils/clubUtils.js`.

JavaScript `Map` objects are modelled as insertion-ordered association
lists: `Map.prototype.set` on a key already present updates the value in
place (keeping the key's position in iteration order), and on a fresh key
appends at the end; `Map.prototype.keys().next().value` is the head of the
list.  JavaScript numbers are modelled as rationals, with `NaN` and the
infinities as explicit extra values where the code can produce them.
-/

set_option autoImplicit false

namespace ClubsFinance

/-- A JavaScript value, as far as the cache and the facade inspect one:
`undefined`, `null`, a boolean, a number, a string, or some other object
(axios responses and the like), identified by a tag.  Only truthiness and
equality of these values matter to the embedded code. -/
inductive JsVal where
  | undef : JsVal
  | jsnull : JsVal
  | bool (b : Bool) : JsVal
  | num (q : ℚ) : JsVal
  | str (s : String) : JsVal
  | obj (tag : ℕ) : JsVal
  deriving DecidableEq, Repr

/-- JavaScript truthiness of a `JsVal`.  Objects are always truthy;
`undefined`, `null`, `false`, `0` and `""` are falsy. -/
def JsVal.truthy : JsVal → Bool
  | .undef => false
  | .jsnull => false
  | .bool b => b
  | .num q => decide (q ≠ 0)
  | .str s => decide (s ≠ "")
  | .obj _ => true

/-- A cache entry `{ data, timestamp }` as stored by `setCachedData`. -/
structure Entry where
  data : JsVal
  timestamp : ℤ
  deriving DecidableEq, Repr

/-- The cache store: a JavaScript `Map` from keys to entries, modelled as an
insertion-ordered association list (head = first-inserted key). -/
abbrev CacheMap (κ : Type) : Type := List (κ × Entry)

namespace CacheMap

variable {κ : Type} [DecidableEq κ]

/-- `Map.prototype.get`: the value at `k`, if present. -/
def mapGet : CacheMap κ → κ → Option Entry
  | [], _ => none
  | (k', e) :: rest, k => if k = k' then some e else mapGet rest k

/-- `Map.prototype.set`: overwrite in place if the key is present (its
position in insertion order is unchanged), otherwise append at the end. -/
def mapSet : CacheMap κ → κ → Entry → CacheMap κ
  | [], k, e => [(k, e)]
  | (k', e') :: rest, k, e =>
      if k = k' then (k', e) :: rest else (k', e') :: mapSet rest k e

/-- `Map.prototype.delete`: remove the entry at `k`, if any. -/
def mapDelete : CacheMap κ → κ → CacheMap κ
  | [], _ => []
  | (k', e') :: rest, k =>
      if k = k' then rest else (k', e') :: mapDelete rest k

/-- The keys of the store, in insertion order. -/
abbrev keys (m : CacheMap κ) : List κ := m.map Prod.fst

/-- The store has no duplicate keys — an invariant of every JavaScript
`Map`, and of every state reachable by the cache operations. -/
def WellFormed (m : CacheMap κ) : Prop := m.keys.Nodup

instance (m : CacheMap κ) : Decidable m.WellFormed := by
  unfold WellFormed; infer_instance

/-- The number of entries, `Map.prototype.size`. -/
def size (m : CacheMap κ) : ℕ := m.length

end CacheMap

/-- `CACHE_TIME = 5 * 60 * 1000` (milliseconds), from `src/unnamed/part_005`. -/
def CACHE_TIME : ℤ := 5 * 60 * 1000

/-- `MAX_CACHE_SIZE = 50`, from `src/unnamed/part_005`. -/
def MAX_CACHE_SIZE : ℕ := 50

section CacheOps

variable {κ : Type} [DecidableEq κ]

open CacheMap

/-- `getCachedData` from `src/unnamed/part_005`: look the key up; if the
entry exists and `now - timestamp < CACHE_TIME` return its data; if it
exists but is expired, delete it; in all other cases return `null`.
The result is the returned `JsVal` paired with the store after the call. -/
def getCachedData (m : CacheMap κ) (now : ℤ) (key : κ) : JsVal × CacheMap κ :=
  match mapGet m key with
  | some e =>
      if now - e.timestamp < CACHE_TIME then (e.data, m)
      else (JsVal.jsnull, mapDelete m key)
  | none => (JsVal.jsnull, m)

/-- `setCachedData` from `src/unnamed/part_005`: if `cache.size >=
MAX_CACHE_SIZE`, delete the first key in iteration order (the earliest
inserted, since overwrites do not move a key); then `set` the key with the
given data and the current timestamp. -/
def setCachedData (m : CacheMap κ) (now : ℤ) (key : κ) (data : JsVal) :
    CacheMap κ :=
  let m' := if MAX_CACHE_SIZE ≤ m.size then
              match m.head? with
              | some p => mapDelete m p.1
              | none => m
            else m
  mapSet m' key ⟨data, now⟩

/-- `clearCache` from `src/unnamed/part_005`. -/
def clearCache (_m : CacheMap κ) : CacheMap κ := []

end CacheOps

namespace CacheMap

variable {κ : Type} [DecidableEq κ]

theorem mapGet_mapSet_self (m : CacheMap κ) (k : κ) (e : Entry) :
    mapGet (mapSet m k e) k = some e := by
  induction m with
  | nil => simp [mapSet, mapGet]
  | cons p rest ih =>
      obtain ⟨k₀, e₀⟩ := p
      by_cases h : k = k₀ <;> simp [mapSet, mapGet, h, ih]

theorem mapGet_mapSet_ne (m : CacheMap κ) (k k' : κ) (e : Entry)
    (h : k' ≠ k) : mapGet (mapSet m k e) k' = mapGet m k' := by
  induction m with
  | nil => simp [mapSet, mapGet, h]
  | cons p rest ih =>
      obtain ⟨k₀, e₀⟩ := p
      by_cases hk : k = k₀
      · subst hk; simp [mapSet, mapGet, h]
      · by_cases hk' : k' = k₀ <;> simp [mapSet, mapGet, hk, hk', ih]

theorem mapGet_eq_none_iff (m : CacheMap κ) (k : κ) :
    mapGet m k = none ↔ k ∉ m.keys := by
  induction m with
  | nil => simp [mapGet, keys]
  | cons p rest ih =>
      obtain ⟨k₀, e₀⟩ := p
      by_cases h : k = k₀ <;> simp [mapGet, keys, h, ih]

theorem length_mapSet (m : CacheMap κ) (k : κ) (e : Entry) :
    (mapSet m k e).length =
      if (mapGet m k).isSome then m.length else m.length + 1 := by
  induction m with
  | nil => simp [mapSet, mapGet]
  | cons p rest ih =>
      obtain ⟨k₀, e₀⟩ := p
      by_cases h : k = k₀
      · simp [mapSet, mapGet, h]
      · simp only [mapSet, mapGet, if_neg h, List.length_cons, ih]
        by_cases hs : (mapGet rest k).isSome <;> simp [hs]

theorem mapSet_of_not_mem (m : CacheMap κ) (k : κ) (e : Entry)
    (h : mapGet m k = none) : mapSet m k e = m ++ [(k, e)] := by
  induction m with
  | nil => simp [mapSet]
  | cons p rest ih =>
      obtain ⟨k₀, e₀⟩ := p
      by_cases hk : k = k₀
      · simp [mapGet, hk] at h
      · simp only [mapGet, if_neg hk] at h
        simp [mapSet, hk, ih h]

theorem keys_mapSet (m : CacheMap κ) (k : κ) (e : Entry) :
    (mapSet m k e).keys =
      if (mapGet m k).isSome then m.keys else m.keys ++ [k] := by
  induction m with
  | nil => simp [mapSet, mapGet, keys]
  | cons p rest ih =>
      obtain ⟨k₀, e₀⟩ := p
      by_cases h : k = k₀
      · simp [mapSet, mapGet, keys, h]
      · simp only [mapSet, if_neg h, mapGet, keys, List.map_cons, ih]
        by_cases hs : (mapGet rest k).isSome <;> simp [hs, keys]

theorem mapDelete_sublist (m : CacheMap κ) (k : κ) :
    List.Sublist (mapDelete m k) m := by
  induction m with
  | nil => simp [mapDelete]
  | cons p rest ih =>
      obtain ⟨k₀, e₀⟩ := p
      by_cases h : k = k₀
      · simp only [mapDelete, if_pos h]
        exact List.sublist_cons_self (k₀, e₀) rest
      · simpa [mapDelete, h] using ih.cons₂ (k₀, e₀)

theorem length_mapDelete_le (m : CacheMap κ) (k : κ) :
    (mapDelete m k).length ≤ m.length :=
  (mapDelete_sublist m k).length_le

theorem mapGet_mapDelete_ne (m : CacheMap κ) (k k' : κ) (h : k' ≠ k) :
    mapGet (mapDelete m k) k' = mapGet m k' := by
  induction m with
  | nil => simp [mapDelete]
  | cons p rest ih =>
      obtain ⟨k₀, e₀⟩ := p
      by_cases hk : k = k₀
      · subst hk; simp [mapDelete, mapGet, h]
      · by_cases hk' : k' = k₀ <;> simp [mapDelete, mapGet, hk, hk', ih]

theorem wf_mapDelete {m : CacheMap κ} (h : m.WellFormed) (k : κ) :
    (mapDelete m k).WellFormed :=
  List.Nodup.sublist ((mapDelete_sublist m k).map Prod.fst) h

theorem mapGet_mapDelete_self (m : CacheMap κ) (k : κ) :
    m.WellFormed → mapGet (mapDelete m k) k = none := by
  induction m with
  | nil => intro _; simp [mapDelete, mapGet]
  | cons p rest ih =>
      obtain ⟨k₀, e₀⟩ := p
      intro h
      simp only [WellFormed, keys, List.map_cons, List.nodup_cons] at h
      by_cases hk : k = k₀
      · subst hk
        simp only [mapDelete, if_pos rfl]
        exact (mapGet_eq_none_iff rest k).2 h.1
      · simp [mapDelete, mapGet, hk, ih h.2]

theorem length_mapDelete (m : CacheMap κ) (k : κ) :
    (mapDelete m k).length =
      if (mapGet m k).isSome then m.length - 1 else m.length := by
  induction m with
  | nil => simp [mapDelete, mapGet]
  | cons p rest ih =>
      obtain ⟨k₀, e₀⟩ := p
      by_cases h : k = k₀
      · simp [mapDelete, mapGet, h]
      · simp only [mapDelete, if_neg h, mapGet, List.length_cons, ih]
        by_cases hs : (mapGet rest k).isSome
        · simp only [if_pos hs]
          have : 1 ≤ rest.length := by
            rcases rest with _ | ⟨q, rest'⟩
            · simp [mapGet] at hs
            · simp
          omega
        · simp [hs]

theorem wf_mapSet {m : CacheMap κ} (h : m.WellFormed) (k : κ)
    (e : Entry) : (mapSet m k e).WellFormed := by
  unfold WellFormed at h ⊢
  rw [show (mapSet m k e).keys = _ from keys_mapSet m k e]
  by_cases hs : (mapGet m k).isSome
  · simpa [hs]
  · have hk : k ∉ m.keys := by
      rw [← mapGet_eq_none_iff]
      exact Option.not_isSome_iff_eq_none.1 hs
    simp [hs, List.nodup_append, h, hk]

end CacheMap

section CacheLemmas

variable {κ : Type} [DecidableEq κ]

open CacheMap

theorem setCachedData_of_lt (m : CacheMap κ) (now : ℤ) (k : κ) (d : JsVal)
    (h : m.length < MAX_CACHE_SIZE) :
    setCachedData m now k d = mapSet m k ⟨d, now⟩ := by
  simp [setCachedData, CacheMap.size, Nat.not_le.2 h]

theorem setCachedData_of_full (k₀ : κ) (e₀ : Entry) (rest : CacheMap κ)
    (now : ℤ) (k : κ) (d : JsVal)
    (h : MAX_CACHE_SIZE ≤ ((k₀, e₀) :: rest).length) :
    setCachedData ((k₀, e₀) :: rest) now k d = mapSet rest k ⟨d, now⟩ := by
  have h' : MAX_CACHE_SIZE ≤ rest.length + 1 := by simpa using h
  simp [setCachedData, CacheMap.size, h', mapDelete]

theorem mapGet_setCachedData_self (m : CacheMap κ) (now : ℤ) (k : κ)
    (d : JsVal) :
    mapGet (setCachedData m now k d) k = some ⟨d, now⟩ := by
  unfold setCachedData
  exact mapGet_mapSet_self _ _ _

theorem wf_setCachedData {m : CacheMap κ} (h : m.WellFormed) (now : ℤ)
    (k : κ) (d : JsVal) : (setCachedData m now k d).WellFormed := by
  unfold setCachedData
  refine wf_mapSet ?_ k ⟨d, now⟩
  by_cases hc : MAX_CACHE_SIZE ≤ m.size
  · simp only [if_pos hc]
    cases m with
    | nil => simpa using h
    | cons p rest => simpa using wf_mapDelete h p.1
  · simpa [if_neg hc] using h

theorem length_mapSet_le (m : CacheMap κ) (k : κ) (e : Entry) :
    (mapSet m k e).length ≤ m.length + 1 := by
  rw [length_mapSet]; split <;> omega

theorem length_setCachedData_le {m : CacheMap κ}
    (h : m.length ≤ MAX_CACHE_SIZE) (now : ℤ) (k : κ) (d : JsVal) :
    (setCachedData m now k d).length ≤ MAX_CACHE_SIZE := by
  by_cases hc : MAX_CACHE_SIZE ≤ m.length
  · have hm : m.length = MAX_CACHE_SIZE := le_antisymm h hc
    cases m with
    | nil => simp [MAX_CACHE_SIZE] at hm
    | cons p rest =>
        obtain ⟨k₀, e₀⟩ := p
        rw [setCachedData_of_full k₀ e₀ rest now k d hc]
        have := length_mapSet_le rest k ⟨d, now⟩
        simp only [List.length_cons] at hm
        omega
  · rw [setCachedData_of_lt m now k d (Nat.not_le.1 hc)]
    have := length_mapSet_le m k ⟨d, now⟩
    omega

theorem getCachedData_fresh {m : CacheMap κ} {k : κ} {now : ℤ} {e : Entry}
    (hget : mapGet m k = some e)
    (hfresh : now - e.timestamp < CACHE_TIME) :
    getCachedData m now k = (e.data, m) := by
  simp [getCachedData, hget, hfresh]

theorem getCachedData_expired {m : CacheMap κ} {k : κ} {now : ℤ} {e : Entry}
    (hget : mapGet m k = some e)
    (hold : CACHE_TIME ≤ now - e.timestamp) :
    getCachedData m now k = (JsVal.jsnull, mapDelete m k) := by
  simp [getCachedData, hget, Int.not_lt.2 hold]

theorem getCachedData_miss {m : CacheMap κ} {k : κ} {now : ℤ}
    (hget : mapGet m k = none) :
    getCachedData m now k = (JsVal.jsnull, m) := by
  simp [getCachedData, hget]

theorem length_getCachedData_snd_le (m : CacheMap κ) (now : ℤ) (k : κ) :
    (getCachedData m now k).2.length ≤ m.length := by
  unfold getCachedData
  cases hget : mapGet m k with
  | none => simp
  | some e =>
      by_cases hfresh : now - e.timestamp < CACHE_TIME
      · simp [hfresh]
      · simpa [hfresh] using length_mapDelete_le m k

/-- One public cache operation: a `getCachedData` read, a `setCachedData`
write, or `clearCache`, each with the wall-clock time at which it runs. -/
inductive Op (κ : Type) where
  | get (key : κ) (now : ℤ) : Op κ
  | set (key : κ) (data : JsVal) (now : ℤ) : Op κ
  | clear : Op κ

/-- The store after running one operation (the value returned by a read is
discarded, only the state matters here). -/
def applyOp (m : CacheMap κ) : Op κ → CacheMap κ
  | .get key now => (getCachedData m now key).2
  | .set key data now => setCachedData m now key data
  | .clear => clearCache m

/-- The store after running a sequence of operations, starting empty. -/
def runOps (ops : List (Op κ)) : CacheMap κ := ops.foldl applyOp []

theorem length_applyOp_le {m : CacheMap κ}
    (h : m.length ≤ MAX_CACHE_SIZE) (op : Op κ) :
    (applyOp m op).length ≤ MAX_CACHE_SIZE := by
  cases op with
  | get key now => exact le_trans (length_getCachedData_snd_le m now key) h
  | set key data now => exact length_setCachedData_le h now key data
  | clear => simp [applyOp, clearCache]

theorem length_foldl_applyOp_le {m : CacheMap κ}
    (h : m.length ≤ MAX_CACHE_SIZE) (ops : List (Op κ)) :
    (ops.foldl applyOp m).length ≤ MAX_CACHE_SIZE := by
  induction ops generalizing m with
  | nil => simpa using h
  | cons op rest ih => exact ih (length_applyOp_le h op)

end CacheLemmas

section CacheStates

open CacheMap

/-- A well-formed cache at full capacity: keys `0..49`, all inserted at
time `0`, with distinct payloads. -/
def fullCache : CacheMap ℕ := (List.range 50).map fun i => (i, ⟨JsVal.obj i, 0⟩)

/-- A well-formed cache one below capacity: keys `0..48`, inserted at
time `0`. -/
def cache49 : CacheMap ℕ := (List.range 49).map fun i => (i, ⟨JsVal.obj i, 0⟩)

/-- `cache49` after overwriting key `0` at time `5` (updating its stored
timestamp but not its position) and then inserting the fresh key `100` at
time `6`, which brings the store to full capacity. -/
def overwrittenFull : CacheMap ℕ :=
  setCachedData (setCachedData cache49 5 0 (JsVal.obj 90)) 6 100 (JsVal.obj 91)

/-- Fifty-one `set` operations with the distinct keys `1..51`. -/
def ops51 : List (Op ℕ) := (List.range 51).map fun i => Op.set (i + 1) (JsVal.obj i) 0

end CacheStates

section ClaimC1

open CacheMap

/-- C1: the claim states that `set` evicts exactly when the store is full
AND the key is not already present, and that the evicted entry is the one
with the earliest insertion time among held entries (with overwrites
updating insertion timestamps).  Both parts fail on the code, at concrete
inputs: (i) with the full store `fullCache` and the already-present key
`7`, `setCachedData` still evicts entry `0`; (ii) in `overwrittenFull`,
entry `0` carries the latest stored timestamp (`5`, updated by an
overwrite) while entry `1` carries the earliest (`0`), yet a capacity
eviction removes entry `0` and keeps entry `1`, because eviction follows
`Map` insertion-order position, which overwrites do not refresh. -/
theorem setCachedData_eviction_counterexample :
    (mapGet fullCache 7).isSome = true ∧
    (mapGet fullCache 0).isSome = true ∧
    mapGet (setCachedData fullCache 1 7 (JsVal.obj 100)) 0 = none ∧
    mapGet overwrittenFull 0 = some ⟨JsVal.obj 90, 5⟩ ∧
    mapGet overwrittenFull 1 = some ⟨JsVal.obj 1, 0⟩ ∧
    overwrittenFull.length = MAX_CACHE_SIZE ∧
    mapGet (setCachedData overwrittenFull 7 101 (JsVal.obj 92)) 0 = none ∧
    mapGet (setCachedData overwrittenFull 7 101 (JsVal.obj 92)) 1 =
      some ⟨JsVal.obj 1, 0⟩ := by
  decide

/-- C1 (amended): for every well-formed store, `setCachedData key value`
always leaves `key` mapped to the new value with the current timestamp,
and it deletes the head entry — the first-inserted key in `Map` iteration
order, a position overwrites do not change — if and only if the store
holds at least `MAX_CACHE_SIZE` entries, regardless of whether `key` is
already present.  Below capacity no other key's binding changes; at
capacity every key other than the evicted head and `key` itself keeps its
binding. -/
theorem setCachedData_eviction_amended {κ : Type} [DecidableEq κ]
    (m : CacheMap κ) (now : ℤ) (key : κ) (v : JsVal) (hwf : m.WellFormed) :
    mapGet (setCachedData m now key v) key = some ⟨v, now⟩ ∧
    (m.length < MAX_CACHE_SIZE → ∀ k', k' ≠ key →
      mapGet (setCachedData m now key v) k' = mapGet m k') ∧
    (MAX_CACHE_SIZE ≤ m.length → ∀ k₀ e₀, m.head? = some (k₀, e₀) →
      ∀ k', k' ≠ key →
        mapGet (setCachedData m now key v) k' =
          if k' = k₀ then none else mapGet m k') := by
  refine ⟨mapGet_setCachedData_self m now key v, ?_, ?_⟩
  · intro hlt k' hk'
    rw [setCachedData_of_lt m now key v hlt]
    exact mapGet_mapSet_ne m key k' _ hk'
  · intro hfull k₀ e₀ hhead k' hk'
    cases m with
    | nil => simp at hhead
    | cons p rest =>
        have hp : p = (k₀, e₀) := by simpa using hhead
        subst hp
        rw [setCachedData_of_full k₀ e₀ rest now key v hfull,
          mapGet_mapSet_ne rest key k' _ hk']
        have hnotin : k₀ ∉ keys rest := by
          have hnd : k₀ ∉ List.map Prod.fst rest ∧
              (List.map Prod.fst rest).Nodup := by
            simpa [WellFormed, keys, List.nodup_cons] using hwf
          simpa [keys] using hnd.1
        by_cases hk₀ : k' = k₀
        · subst hk₀
          simp [(mapGet_eq_none_iff rest k').2 hnotin]
        · simp [mapGet, hk₀]

/-- Witness for C1 (amended), at a one-entry store and at the full store
`fullCache`: the inserted key gets the fresh entry, a below-capacity `set`
leaves other keys' bindings intact, and a `set` on the full store removes
head key `0` while key `3` keeps its binding. -/
theorem setCachedData_eviction_amended_witness :
    mapGet (setCachedData ([(0, ⟨JsVal.obj 0, 0⟩)] : CacheMap ℕ) 1 5 (JsVal.obj 1)) 5 =
      some ⟨JsVal.obj 1, 1⟩ ∧
    mapGet (setCachedData ([(0, ⟨JsVal.obj 0, 0⟩)] : CacheMap ℕ) 1 5 (JsVal.obj 1)) 0 =
      mapGet ([(0, ⟨JsVal.obj 0, 0⟩)] : CacheMap ℕ) 0 ∧
    mapGet (setCachedData fullCache 1 7 (JsVal.obj 100)) 3 =
      (if (3 : ℕ) = 0 then none else mapGet fullCache 3) :=
  ⟨(setCachedData_eviction_amended [(0, ⟨JsVal.obj 0, 0⟩)] 1 5 (JsVal.obj 1)
      (by decide)).1,
   (setCachedData_eviction_amended [(0, ⟨JsVal.obj 0, 0⟩)] 1 5 (JsVal.obj 1)
      (by decide)).2.1 (by decide) 0 (by decide),
   (setCachedData_eviction_amended fullCache 1 7 (JsVal.obj 100)
      (by decide)).2.2 (by decide) 0 ⟨JsVal.obj 0, 0⟩ (by decide) 3 (by decide)⟩

end ClaimC1

section ClaimC2

open CacheMap

/-- If a `setCachedData` applied to a store within capacity produces a
store at exactly full capacity, the head (first-inserted) key of the
result differs from the key just written: a key at capacity-filling time
can only sit at the end of insertion order. -/
theorem setCachedData_head_ne {κ : Type} [DecidableEq κ] {m : CacheMap κ}
    {t : ℤ} {k : κ} {v : JsVal} (hle : m.length ≤ MAX_CACHE_SIZE)
    (hfull : (setCachedData m t k v).length = MAX_CACHE_SIZE)
    {p : κ × Entry} (hp : (setCachedData m t k v).head? = some p) :
    p.1 ≠ k := by
  by_cases hc : MAX_CACHE_SIZE ≤ m.length
  · have hm : m.length = MAX_CACHE_SIZE := le_antisymm hle hc
    cases m with
    | nil => simp [MAX_CACHE_SIZE] at hm
    | cons q rest =>
        obtain ⟨k₀, e₀⟩ := q
        rw [setCachedData_of_full k₀ e₀ rest t k v hc] at hfull hp
        cases hg : mapGet rest k with
        | some e =>
            rw [length_mapSet, hg] at hfull
            simp only [List.length_cons] at hm
            simp [Option.isSome] at hfull
            omega
        | none =>
            rw [mapSet_of_not_mem rest k _ hg] at hp
            cases rest with
            | nil => simp [List.length_cons, MAX_CACHE_SIZE] at hm
            | cons r rest' =>
                have hpr : r = p := by simpa using hp
                intro hk
                have hmem : r.1 ∈ keys (r :: rest') :=
                  List.mem_map_of_mem Prod.fst (List.mem_cons_self r rest')
                have hk1 : r.1 = k := by rw [hpr]; exact hk
                rw [hk1] at hmem
                exact (mapGet_eq_none_iff _ k).1 hg hmem
  · rw [setCachedData_of_lt m t k v (Nat.not_le.1 hc)] at hfull hp
    cases hg : mapGet m k with
    | some e =>
        rw [length_mapSet, hg] at hfull
        simp [Option.isSome] at hfull
        omega
    | none =>
        rw [mapSet_of_not_mem m k _ hg] at hp
        cases m with
        | nil =>
            rw [length_mapSet, hg] at hfull
            simp [MAX_CACHE_SIZE] at hfull
        | cons r rest' =>
            have hpr : r = p := by simpa using hp
            intro hk
            have hmem : r.1 ∈ keys (r :: rest') :=
              List.mem_map_of_mem Prod.fst (List.mem_cons_self r rest')
            have hk1 : r.1 = k := by rw [hpr]; exact hk
            rw [hk1] at hmem
            exact (mapGet_eq_none_iff _ k).1 hg hmem

/-- C2: the claim states that `set(k, v1)` then `set(k, v2)` leaves the
store size unchanged for every prior state, including a cache at full
capacity.  At full capacity it fails: starting from the 50-entry
`fullCache` and the fresh key `100`, the first `set` evicts key `0` and
appends key `100` (size still 50), and the second `set` — an overwrite —
evicts key `1` as well, shrinking the store to 49 entries.  `get(k)`
still returns `v2`. -/
theorem set_set_size_counterexample :
    fullCache.length = 50 ∧
    (setCachedData fullCache 0 100 (JsVal.obj 1)).length = 50 ∧
    (setCachedData (setCachedData fullCache 0 100 (JsVal.obj 1)) 1 100
        (JsVal.obj 2)).length = 49 ∧
    (getCachedData (setCachedData (setCachedData fullCache 0 100 (JsVal.obj 1))
        1 100 (JsVal.obj 2)) 1 100).1 = JsVal.obj 2 := by
  decide

/-- C2 (amended): for every store within capacity, `set(k, v1)` then
`set(k, v2)` leaves `get(k) = v2` (when read before its TTL elapses).
The second `set` leaves the store size unchanged when the store is below
`MAX_CACHE_SIZE` after the first `set`; when the first `set` leaves the
store exactly at full capacity, the second `set` additionally evicts the
oldest entry, so the size drops to `MAX_CACHE_SIZE - 1`. -/
theorem set_set_overwrite {κ : Type} [DecidableEq κ] (m : CacheMap κ)
    (k : κ) (v₁ v₂ : JsVal) (t₁ t₂ now : ℤ)
    (hle : m.length ≤ MAX_CACHE_SIZE) (hfresh : now - t₂ < CACHE_TIME) :
    (getCachedData (setCachedData (setCachedData m t₁ k v₁) t₂ k v₂) now k).1
      = v₂ ∧
    ((setCachedData m t₁ k v₁).length < MAX_CACHE_SIZE →
      (setCachedData (setCachedData m t₁ k v₁) t₂ k v₂).length =
        (setCachedData m t₁ k v₁).length) ∧
    ((setCachedData m t₁ k v₁).length = MAX_CACHE_SIZE →
      (setCachedData (setCachedData m t₁ k v₁) t₂ k v₂).length =
        MAX_CACHE_SIZE - 1) := by
  refine ⟨?_, ?_, ?_⟩
  · rw [getCachedData_fresh (mapGet_setCachedData_self _ t₂ k v₂) hfresh]
  · intro hlt
    rw [setCachedData_of_lt _ t₂ k v₂ hlt, length_mapSet,
      mapGet_setCachedData_self _ t₁ k v₁]
    simp
  · intro hfull
    have hne : 0 < (setCachedData m t₁ k v₁).length := by
      rw [hfull]; simp [MAX_CACHE_SIZE]
    obtain ⟨p, rest, hcons⟩ :
        ∃ p rest, setCachedData m t₁ k v₁ = p :: rest := by
      cases hm : setCachedData m t₁ k v₁ with
      | nil => rw [hm] at hne; simp at hne
      | cons p rest => exact ⟨p, rest, rfl⟩
    have hhead : (setCachedData m t₁ k v₁).head? = some p := by
      rw [hcons]; rfl
    have hkne : p.1 ≠ k := setCachedData_head_ne hle hfull hhead
    obtain ⟨k₀, e₀⟩ := p
    rw [hcons] at hfull ⊢
    rw [setCachedData_of_full k₀ e₀ rest t₂ k v₂ (le_of_eq hfull.symm)]
    have hget : mapGet rest k = some ⟨v₁, t₁⟩ := by
      have hself := mapGet_setCachedData_self m t₁ k v₁
      rw [hcons] at hself
      have hkk : ¬(k = k₀) := fun h => hkne h.symm
      simpa [mapGet, hkk] using hself
    rw [length_mapSet, hget]
    simp only [Option.isSome_some, if_true, List.length_cons] at hfull ⊢
    simp only [MAX_CACHE_SIZE] at hfull ⊢
    omega

/-- Witness for C2 (amended): from the empty store, two writes to key `7`
leave `get(7) = obj 2` and an unchanged store size. -/
theorem set_set_overwrite_witness :
    (getCachedData (setCachedData (setCachedData ([] : CacheMap ℕ) 0 7
        (JsVal.obj 1)) 0 7 (JsVal.obj 2)) 0 7).1 = JsVal.obj 2 ∧
    (setCachedData (setCachedData ([] : CacheMap ℕ) 0 7 (JsVal.obj 1)) 0 7
        (JsVal.obj 2)).length =
      (setCachedData ([] : CacheMap ℕ) 0 7 (JsVal.obj 1)).length :=
  ⟨(set_set_overwrite [] 7 (JsVal.obj 1) (JsVal.obj 2) 0 0 0 (by decide)
      (by decide)).1,
   (set_set_overwrite [] 7 (JsVal.obj 1) (JsVal.obj 2) 0 0 0 (by decide)
      (by decide)).2.1 (by decide)⟩

end ClaimC2

section ClaimC3

open CacheMap

/-- C3 (confirmed): `getCachedData` returns the stored value when the
entry is present with age `now - timestamp < CACHE_TIME`, leaving the
store untouched; when the entry is present but expired it deletes it and
returns `null` (so a re-read misses); when no entry exists it returns
`null` and leaves the store untouched.  Concretely, after a `set` of key
`k` at time `T`, a read at `T + TTL - eps` (for `0 < eps`) returns the
value and a read at `T + TTL + eps` returns `null`; a read never returns
an entry whose age reaches the TTL. -/
theorem getCachedData_ttl_spec {κ : Type} [DecidableEq κ] (m : CacheMap κ)
    (k : κ) (now : ℤ) :
    (∀ e, mapGet m k = some e → now - e.timestamp < CACHE_TIME →
      getCachedData m now k = (e.data, m)) ∧
    (∀ e, mapGet m k = some e → CACHE_TIME ≤ now - e.timestamp →
      getCachedData m now k = (JsVal.jsnull, mapDelete m k) ∧
      (m.WellFormed → mapGet (getCachedData m now k).2 k = none)) ∧
    (mapGet m k = none → getCachedData m now k = (JsVal.jsnull, m)) ∧
    (∀ (v : JsVal) (T eps : ℤ), 0 < eps →
      (getCachedData (setCachedData m T k v) (T + CACHE_TIME - eps) k).1 = v ∧
      (getCachedData (setCachedData m T k v) (T + CACHE_TIME + eps) k).1 =
        JsVal.jsnull) := by
  refine ⟨?_, ?_, ?_, ?_⟩
  · intro e hget hfresh
    exact getCachedData_fresh hget hfresh
  · intro e hget hold
    refine ⟨getCachedData_expired hget hold, ?_⟩
    intro hwf
    rw [getCachedData_expired hget hold]
    exact mapGet_mapDelete_self m k hwf
  · exact getCachedData_miss
  · intro v T eps heps
    have hget := mapGet_setCachedData_self m T k v
    constructor
    · rw [getCachedData_fresh hget (by simp only []; omega)]
    · rw [getCachedData_expired hget (by simp only []; omega)]

/-- Witness for C3, on a one-entry store holding key `0` set at time `0`
with value `obj 3` and `TTL = 300000`: a read at time `299999` returns the
value with the store unchanged, a read at time `300000` returns `null` and
removes the entry, a read of the absent key `1` returns `null`, and the
concrete `T + TTL ± 1` reads behave as claimed. -/
theorem getCachedData_ttl_spec_witness :
    getCachedData ([(0, ⟨JsVal.obj 3, 0⟩)] : CacheMap ℕ) 299999 0 =
      (JsVal.obj 3, [(0, ⟨JsVal.obj 3, 0⟩)]) ∧
    getCachedData ([(0, ⟨JsVal.obj 3, 0⟩)] : CacheMap ℕ) 300000 0 =
      (JsVal.jsnull, CacheMap.mapDelete [(0, ⟨JsVal.obj 3, 0⟩)] 0) ∧
    getCachedData ([(0, ⟨JsVal.obj 3, 0⟩)] : CacheMap ℕ) 5 1 =
      (JsVal.jsnull, [(0, ⟨JsVal.obj 3, 0⟩)]) ∧
    (getCachedData (setCachedData ([] : CacheMap ℕ) 0 0 (JsVal.obj 3))
      (0 + CACHE_TIME - 1) 0).1 = JsVal.obj 3 ∧
    (getCachedData (setCachedData ([] : CacheMap ℕ) 0 0 (JsVal.obj 3))
      (0 + CACHE_TIME + 1) 0).1 = JsVal.jsnull :=
  ⟨(getCachedData_ttl_spec [(0, ⟨JsVal.obj 3, 0⟩)] 0 299999).1
      ⟨JsVal.obj 3, 0⟩ (by decide) (by decide),
   ((getCachedData_ttl_spec [(0, ⟨JsVal.obj 3, 0⟩)] 0 300000).2.1
      ⟨JsVal.obj 3, 0⟩ (by decide) (by decide)).1,
   (getCachedData_ttl_spec [(0, ⟨JsVal.obj 3, 0⟩)] 1 5).2.2.1 (by decide),
   ((getCachedData_ttl_spec ([] : CacheMap ℕ) 0 0).2.2.2 (JsVal.obj 3) 0 1
      (by decide)).1,
   ((getCachedData_ttl_spec ([] : CacheMap ℕ) 0 0).2.2.2 (JsVal.obj 3) 0 1
      (by decide)).2⟩

end ClaimC3

section ClaimC4

open CacheMap

/-- C4 (confirmed): starting from the empty store, every sequence of
`get`/`set`/`clear` operations leaves at most `MAX_CACHE_SIZE = 50`
entries; and inserting the 51 distinct keys `1..51` in order leaves
exactly 50 entries, with key `1` absent and keys `2..51` all present. -/
theorem cache_capacity_invariant :
    (∀ (κ : Type) (inst : DecidableEq κ) (ops : List (Op κ)),
      (@runOps κ inst ops).length ≤ MAX_CACHE_SIZE) ∧
    (runOps ops51).length = MAX_CACHE_SIZE ∧
    mapGet (runOps ops51) 1 = none ∧
    ((List.range 50).all fun j => (mapGet (runOps ops51) (j + 2)).isSome) =
      true := by
  refine ⟨?_, by decide, by decide, by decide⟩
  intro κ inst ops
  exact length_foldl_applyOp_le (by simp) ops

end ClaimC4

/-- A financial field value as the components read one off a record:
absent (`undefined`), explicitly `null`, or a number (JavaScript numbers
are modelled as rationals). -/
inductive FinVal where
  | undef : FinVal
  | null : FinVal
  | num (q : ℚ) : FinVal
  deriving DecidableEq, Repr

/-- JavaScript truthiness of a financial field: `undefined`, `null` and
`0` are falsy, any other number is truthy. -/
def FinVal.truthy : FinVal → Bool
  | .num q => decide (q ≠ 0)
  | _ => false

/-- JavaScript `x || 0` on a financial field. -/
def FinVal.orZero : FinVal → ℚ
  | .num q => q
  | _ => 0

/-- JavaScript `Math.abs(x) || 0` on a financial field (`Math.abs` of
`undefined` is `NaN`, which `|| 0` turns into `0`; of `null` it is `0`). -/
def FinVal.absOrZero : FinVal → ℚ
  | .num q => |q|
  | _ => 0

/-- `club[field] !== null && club[field] !== undefined`, the presence
check used by `getDataTier` (zero counts as present). -/
def FinVal.isPresent : FinVal → Bool
  | .num _ => true
  | _ => false

/-- A JavaScript arithmetic result: `NaN`, an infinity, or a finite
number. -/
inductive JsNum where
  | nan : JsNum
  | pinf : JsNum
  | ninf : JsNum
  | val (q : ℚ) : JsNum
  deriving DecidableEq, Repr

/-- `ToNumber` coercion of a financial field, as JavaScript arithmetic
applies it: `undefined` becomes `NaN`, `null` becomes `0`. -/
def FinVal.toNum : FinVal → JsNum
  | .undef => .nan
  | .null => .val 0
  | .num q => .val q

/-- JavaScript division on numbers (`NaN` propagates; division by zero
gives a signed infinity, `0/0` gives `NaN`). -/
def JsNum.div : JsNum → JsNum → JsNum
  | .nan, _ => .nan
  | _, .nan => .nan
  | .pinf, .pinf => .nan
  | .pinf, .ninf => .nan
  | .ninf, .pinf => .nan
  | .ninf, .ninf => .nan
  | .pinf, .val q => if q < 0 then .ninf else .pinf
  | .ninf, .val q => if q < 0 then .pinf else .ninf
  | .val _, .pinf => .val 0
  | .val _, .ninf => .val 0
  | .val p, .val q =>
      if q = 0 then (if p = 0 then .nan else if 0 < p then .pinf else .ninf)
      else .val (p / q)

/-- JavaScript multiplication by a finite constant. -/
def JsNum.mulC (a : JsNum) (c : ℚ) : JsNum :=
  match a with
  | .nan => .nan
  | .pinf => if c = 0 then .nan else if c < 0 then .ninf else .pinf
  | .ninf => if c = 0 then .nan else if c < 0 then .pinf else .ninf
  | .val q => .val (q * c)

/-- JavaScript `Math.abs` on a number. -/
def JsNum.abs : JsNum → JsNum
  | .nan => .nan
  | .pinf => .pinf
  | .ninf => .pinf
  | .val q => .val |q|

/-- A FinancialRecord, restricted to the fields the classifier and the
metrics engine read.  A field not set in a record literal defaults to
`undef` (absent). -/
structure Club where
  revenue : FinVal := .undef
  total_assets : FinVal := .undef
  operating_expenses : FinVal := .undef
  net_income : FinVal := .undef
  total_equity : FinVal := .undef
  operating_profit : FinVal := .undef
  player_wages : FinVal := .undef
  administrative_expenses : FinVal := .undef
  staff_costs_total : FinVal := .undef
  profit_on_player_disposals : FinVal := .undef
  player_amortization : FinVal := .undef
  broadcasting_revenue : FinVal := .undef
  commercial_revenue : FinVal := .undef
  matchday_revenue : FinVal := .undef
  deriving DecidableEq, Repr

/-- The presentation tier of a record. -/
inductive DataTier where
  | basic : DataTier
  | core : DataTier
  | rich : DataTier
  deriving DecidableEq, Repr

/-- `richDataFields` from `getDataTier` in `ClubDetail.js`. -/
def richDataFields : List (Club → FinVal) :=
  [Club.revenue, Club.total_assets, Club.operating_expenses,
   Club.net_income, Club.total_equity]

/-- `coreDataFields` from `getDataTier` in `ClubDetail.js`. -/
def coreDataFields : List (Club → FinVal) :=
  [Club.revenue, Club.total_assets]

/-- `getDataTier` from `ClubDetail.js` (lines 47-59): `basic` for a null
club; otherwise count the rich fields present (not `null`, not
`undefined`); `rich` when at least two are present, else `core` when at
least one core field is present, else `basic`. -/
def getDataTier : Option Club → DataTier
  | none => .basic
  | some club =>
      let richFieldsPresent :=
        (richDataFields.filter fun f => (f club).isPresent).length
      let coreFieldsPresent :=
        (coreDataFields.filter fun f => (f club).isPresent).length
      if 2 ≤ richFieldsPresent then .rich
      else if 1 ≤ coreFieldsPresent then .core
      else .basic

/-- The partial result object built by `calculateMetrics`: a field is
`none` exactly when the code never assigns it.  `adminPercentage` appears
in the spec's DerivedMetrics but is assigned by no statement of
`calculateMetrics`, so here it is constantly `none`. -/
structure Metrics where
  operatingMargin : Option JsNum := none
  wagesPercentage : Option JsNum := none
  adminPercentage : Option JsNum := none
  totalOperatingCosts : Option ℚ := none
  playerInvestmentEfficiency : Option JsNum := none
  deriving DecidableEq, Repr

/-- `calculateMetrics` from `ClubDetail.js` (lines 541-576).  The guards
are the literal JavaScript conditions: `operating_profit !== null &&
revenue`, `player_wages && revenue`, `administrative_expenses ||
player_wages || staff_costs_total`, `profit_on_player_disposals &&
player_amortization`.  No statement assigns `adminPercentage`. -/
def calculateMetrics (club : Club) : Metrics :=
  { operatingMargin :=
      if (club.operating_profit != FinVal.null) && club.revenue.truthy then
        some ((club.operating_profit.toNum.div club.revenue.toNum).mulC 100)
      else none
    wagesPercentage :=
      if club.player_wages.truthy && club.revenue.truthy then
        some ((club.player_wages.toNum.abs.div club.revenue.toNum).mulC 100)
      else none
    adminPercentage := none
    totalOperatingCosts :=
      if club.administrative_expenses.truthy || club.player_wages.truthy
          || club.staff_costs_total.truthy then
        some (club.administrative_expenses.absOrZero +
          (if 0 < club.player_wages.absOrZero then club.player_wages.absOrZero
           else club.staff_costs_total.absOrZero))
      else none
    playerInvestmentEfficiency :=
      if club.profit_on_player_disposals.truthy &&
          club.player_amortization.truthy then
        some (club.profit_on_player_disposals.toNum.div
          club.player_amortization.toNum.abs)
      else none }

/-- One `{amount, percentage}` pair of the revenue breakdown. -/
structure CatEntry where
  amount : ℚ
  percentage : ℚ
  deriving DecidableEq, Repr

/-- The four-category result of `calculateRevenuePercentages`. -/
structure RevenueBreakdown where
  broadcasting : CatEntry
  commercial : CatEntry
  matchday : CatEntry
  other : CatEntry
  deriving DecidableEq, Repr

/-- `calculateRevenuePercentages` from `ClubDetail.js` (lines 526-539):
`total = revenue || 0`, each category amount is `field || 0`, `other` is
the remainder, and each percentage is `amount / total * 100` when
`total > 0` and `0` otherwise. -/
def calculateRevenuePercentages (club : Club) : RevenueBreakdown :=
  let total := club.revenue.orZero
  let broadcasting := club.broadcasting_revenue.orZero
  let commercial := club.commercial_revenue.orZero
  let matchday := club.matchday_revenue.orZero
  let other := total - (broadcasting + commercial + matchday)
  { broadcasting :=
      ⟨broadcasting, if 0 < total then broadcasting / total * 100 else 0⟩
    commercial :=
      ⟨commercial, if 0 < total then commercial / total * 100 else 0⟩
    matchday :=
      ⟨matchday, if 0 < total then matchday / total * 100 else 0⟩
    other :=
      ⟨other, if 0 < total then other / total * 100 else 0⟩ }

/-- The record `{operating_profit: -50}` (no revenue). -/
def clubOpOnly : Club := { operating_profit := FinVal.num (-50) }

/-- The record `{operating_profit: -50, revenue: 200}`. -/
def clubOpRev : Club := { operating_profit := FinVal.num (-50), revenue := FinVal.num 200 }

/-- The record `{revenue: 200}` (operating profit absent). -/
def clubRevOnly : Club := { revenue := FinVal.num 200 }

/-- The record `{administrative_expenses: 80, revenue: 200}`. -/
def clubAdminRev : Club := { administrative_expenses := FinVal.num 80, revenue := FinVal.num 200 }

/-- The record `{revenue: 100, total_assets: 50, net_income: 10}`. -/
def clubRich : Club := { revenue := FinVal.num 100, total_assets := FinVal.num 50, net_income := FinVal.num 10 }

/-- The record `{revenue: 100}`. -/
def clubCore : Club := { revenue := FinVal.num 100 }

/-- The record `{revenue:1000, broadcasting_revenue:600, commercial_revenue:300, matchday_revenue:0}`. -/
def clubBreakdownEx : Club := { revenue := FinVal.num 1000, broadcasting_revenue := FinVal.num 600, commercial_revenue := FinVal.num 300, matchday_revenue := FinVal.num 0 }

/-- The record `{revenue: 100, broadcasting_revenue: 200}`: the category
fields sum to more than total revenue. -/
def clubNegOther : Club := { revenue := FinVal.num 100, broadcasting_revenue := FinVal.num 200 }

section ClaimC5

/-- C5: the claim states that `operatingMargin` is omitted whenever its
precondition fails, *including when `operating_profit` is absent while
`revenue` is present* — never `NaN`.  That fails on the code: the guard is
`operating_profit !== null && revenue`, and `undefined !== null` is true,
so for the record `{revenue: 200}` (with `operating_profit` absent) the
code computes `(undefined / 200) * 100 = NaN` and stores it, rather than
omitting the metric. -/
theorem operatingMargin_counterexample :
    (calculateMetrics clubRevOnly).operatingMargin = some JsNum.nan ∧
    (calculateMetrics clubRevOnly).operatingMargin ≠ none := by
  decide

/-- C5 (amended): `operatingMargin` is `operating_profit / revenue * 100`
whenever `operating_profit` is a number (including zero) and `revenue` is
truthy; it is omitted exactly when `operating_profit` is literally `null`
or `revenue` is falsy; and when `operating_profit` is absent
(`undefined`) while `revenue` is truthy, the guard still passes and the
stored value is `NaN`. -/
theorem operatingMargin_amended (c : Club) :
    ((c.operating_profit = FinVal.null ∨ c.revenue.truthy = false) →
      (calculateMetrics c).operatingMargin = none) ∧
    (∀ p q : ℚ, c.operating_profit = FinVal.num p → c.revenue = FinVal.num q →
      q ≠ 0 → (calculateMetrics c).operatingMargin =
        some (JsNum.val (p / q * 100))) ∧
    (c.operating_profit = FinVal.undef → c.revenue.truthy = true →
      (calculateMetrics c).operatingMargin = some JsNum.nan) := by
  refine ⟨?_, ?_, ?_⟩
  · rintro (h | h)
    · simp [calculateMetrics, h, bne]
    · simp [calculateMetrics, h]
  · intro p q hp hq hq0
    have ht : (FinVal.num q).truthy = true := by simp [FinVal.truthy, hq0]
    simp [calculateMetrics, hp, hq, ht, bne, FinVal.toNum, JsNum.div,
      JsNum.mulC, hq0]
  · intro hp ht
    simp [calculateMetrics, hp, ht, bne, FinVal.toNum, JsNum.div, JsNum.mulC]

/-- Witness for C5 (amended), exercising all three branches: the spec's
own examples `computeRatios({operating_profit: -50})` (omitted) and
`computeRatios({operating_profit: -50, revenue: 200})` (margin `-25`),
plus the `NaN` case `{revenue: 200}`. -/
theorem operatingMargin_amended_witness :
    (calculateMetrics clubOpOnly).operatingMargin = none ∧
    (calculateMetrics clubOpRev).operatingMargin = some (JsNum.val (-25)) ∧
    (calculateMetrics clubRevOnly).operatingMargin = some JsNum.nan := by
  refine ⟨(operatingMargin_amended _).1 (Or.inr (by decide)), ?_,
    (operatingMargin_amended _).2.2 rfl (by decide)⟩
  have h := (operatingMargin_amended clubOpRev).2.1 (-50) 200 rfl rfl
    (by norm_num)
  have harith : ((-50 : ℚ) / 200 * 100) = -25 := by norm_num
  rw [h, harith]

end ClaimC5

section ClaimC6

/-- C6: the claim states that `adminPercentage =
|administrative_expenses| / revenue * 100` is produced whenever both
fields are present/truthy.  No statement of `calculateMetrics` assigns
`adminPercentage` at all (the spec's table entry has no counterpart in
the code), so for the record `{administrative_expenses: 80, revenue:
200}` the claim requires `adminPercentage = 40` while the code's result
omits the metric. -/
theorem adminPercentage_counterexample :
    (calculateMetrics clubAdminRev).adminPercentage = none ∧
    (calculateMetrics clubAdminRev).adminPercentage ≠
      some (JsNum.val 40) ∧
    clubAdminRev.administrative_expenses.truthy = true ∧
    clubAdminRev.revenue.truthy = true := by
  decide

/-- C6 (amended): `calculateMetrics` never outputs `adminPercentage`; the
metric is omitted for every record, even when both
`administrative_expenses` and `revenue` are present and truthy. -/
theorem adminPercentage_never_assigned (c : Club) :
    (calculateMetrics c).adminPercentage = none := rfl

end ClaimC6

/-- DataTierClassifier written from the spec's words, for comparison with
`getDataTier`: count the rich fields present (`0` counts as present, via
five explicit indicator summands); `rich` when that count is at least 2,
else `core` when `revenue` or `total_assets` is present, else `basic`. -/
def classifySpec (c : Club) : DataTier :=
  let richCount : ℕ :=
    (if c.revenue.isPresent then 1 else 0) +
    (if c.total_assets.isPresent then 1 else 0) +
    (if c.operating_expenses.isPresent then 1 else 0) +
    (if c.net_income.isPresent then 1 else 0) +
    (if c.total_equity.isPresent then 1 else 0)
  if 2 ≤ richCount then DataTier.rich
  else if c.revenue.isPresent || c.total_assets.isPresent then DataTier.core
  else DataTier.basic

section ClaimC7

/-- C7 (confirmed): `getDataTier` is a pure total function agreeing with
the spec's counting rule on every record — `rich` when at least two of
the five rich fields are present (zero counting as present), else `core`
when `revenue` or `total_assets` is present, else `basic` — and the
spec's three examples classify as `rich`, `core` and `basic`; a null
club is `basic`. -/
theorem getDataTier_matches_spec :
    (∀ c : Club, getDataTier (some c) = classifySpec c) ∧
    getDataTier (some clubRich) = DataTier.rich ∧
    getDataTier (some clubCore) = DataTier.core ∧
    getDataTier (some {}) = DataTier.basic ∧
    getDataTier none = DataTier.basic := by
  refine ⟨?_, by decide, by decide, by decide, rfl⟩
  intro c
  unfold getDataTier classifySpec richDataFields coreDataFields
  cases h1 : c.revenue.isPresent <;> cases h2 : c.total_assets.isPresent <;>
    cases h3 : c.operating_expenses.isPresent <;>
    cases h4 : c.net_income.isPresent <;>
    cases h5 : c.total_equity.isPresent <;>
    simp [List.filter, h1, h2, h3, h4, h5]

end ClaimC7

section ClaimC8

/-- C8 (confirmed): with `total = revenue || 0`, each category's amount is
its field `|| 0` and its percentage is `amount / total * 100` when
`total > 0` and `0` otherwise; `other.amount` is the remainder
`total - (broadcasting + commercial + matchday)` with its percentage
computed the same way, and it may be negative (passed through as-is).
The spec's example `{revenue:1000, broadcasting:600, commercial:300,
matchday:0}` yields `{600, 60%}`, `{300, 30%}`, `{0, 0%}`, `{100, 10%}`,
and `{revenue:100, broadcasting:200}` yields `other.amount = -100`. -/
theorem revenueBreakdown_spec :
    (∀ c : Club,
      (calculateRevenuePercentages c).broadcasting.amount =
        c.broadcasting_revenue.orZero ∧
      (calculateRevenuePercentages c).commercial.amount =
        c.commercial_revenue.orZero ∧
      (calculateRevenuePercentages c).matchday.amount =
        c.matchday_revenue.orZero ∧
      (calculateRevenuePercentages c).other.amount =
        c.revenue.orZero - (c.broadcasting_revenue.orZero +
          c.commercial_revenue.orZero + c.matchday_revenue.orZero) ∧
      (calculateRevenuePercentages c).broadcasting.percentage =
        (if 0 < c.revenue.orZero then
          c.broadcasting_revenue.orZero / c.revenue.orZero * 100 else 0) ∧
      (calculateRevenuePercentages c).commercial.percentage =
        (if 0 < c.revenue.orZero then
          c.commercial_revenue.orZero / c.revenue.orZero * 100 else 0) ∧
      (calculateRevenuePercentages c).matchday.percentage =
        (if 0 < c.revenue.orZero then
          c.matchday_revenue.orZero / c.revenue.orZero * 100 else 0) ∧
      (calculateRevenuePercentages c).other.percentage =
        (if 0 < c.revenue.orZero then
          (c.revenue.orZero - (c.broadcasting_revenue.orZero +
            c.commercial_revenue.orZero + c.matchday_revenue.orZero)) /
              c.revenue.orZero * 100 else 0)) ∧
    calculateRevenuePercentages clubBreakdownEx =
      ⟨⟨600, 60⟩, ⟨300, 30⟩, ⟨0, 0⟩, ⟨100, 10⟩⟩ ∧
    (calculateRevenuePercentages clubNegOther).other.amount = -100 := by
  refine ⟨fun c => ⟨rfl, rfl, rfl, rfl, rfl, rfl, rfl, rfl⟩, ?_, ?_⟩
  · norm_num [calculateRevenuePercentages, clubBreakdownEx, FinVal.orZero]
  · norm_num [calculateRevenuePercentages, clubNegOther, FinVal.orZero]

end ClaimC8

/-- The JavaScript regex class `\\s`, restricted to ASCII control
whitespace and the space character (club names contain no exotic
whitespace). -/
def wsChar (c : Char) : Bool :=
  c == ' ' || c == '\t' || c == '\n' || c == '\r' ||
    c == Char.ofNat 11 || c == Char.ofNat 12

/-- The JavaScript regex class `\\w`: ASCII letters, digits and
underscore. -/
def wordChar (c : Char) : Bool :=
  (decide ('a' ≤ c) && decide (c ≤ 'z')) ||
    (decide ('A' ≤ c) && decide (c ≤ 'Z')) ||
    (decide ('0' ≤ c) && decide (c ≤ '9')) || c == '_'

/-- ASCII lowercasing, the fragment of `String.prototype.toLowerCase`
exercised by club names. -/
def asciiLower (c : Char) : Char :=
  if 'A' ≤ c ∧ c ≤ 'Z' then Char.ofNat (c.toNat + 32) else c

/-- `.replace(/\\s+/g, '-')`: each maximal run of whitespace becomes a
single hyphen.  Modelled by a two-character window: a whitespace character
followed by another whitespace character is dropped; the last whitespace
character of a run becomes `'-'`. -/
def collapseWs : List Char → List Char
  | [] => []
  | [c] => if wsChar c then ['-'] else [c]
  | c :: d :: rest =>
      if wsChar c && wsChar d then collapseWs (d :: rest)
      else (if wsChar c then '-' else c) :: collapseWs (d :: rest)

/-- `.replace(/[^\\w-]/g, '')`: keep only word characters and hyphens. -/
def stripNonWord (l : List Char) : List Char :=
  l.filter fun c => wordChar c || c == '-'

/-- The `^-` half of `.replace(/^-|-$/g, '')`: remove one leading hyphen
if present. -/
def trimLeadHyphen (l : List Char) : List Char :=
  match l with
  | c :: rest => if c = '-' then rest else c :: rest
  | [] => []

/-- The `-$` half of `.replace(/^-|-$/g, '')`: remove one trailing hyphen
if present. -/
def trimTrailHyphen (l : List Char) : List Char :=
  (trimLeadHyphen l.reverse).reverse

/-- `clubNameToSlug` from `src/frontend/src/utils/clubUtils.js`:
lowercase, collapse whitespace runs to hyphens, strip non-word
non-hyphen characters, then apply `.replace(/^-|-$/g, '')`, which removes
at most one leading and at most one trailing hyphen. -/
def clubNameToSlug (s : String) : String :=
  String.mk (trimTrailHyphen (trimLeadHyphen
    (stripNonWord (collapseWs (s.data.map asciiLower)))))

/-- Whitespace-run collapsing written from the spec's words: a maximal
whitespace run at the head becomes one hyphen and is skipped with
`dropWhile`. -/
def collapseSpec : List Char → List Char
  | [] => []
  | c :: rest =>
      if wsChar c then '-' :: collapseSpec (rest.dropWhile wsChar)
      else c :: collapseSpec rest
  termination_by l => l.length
  decreasing_by
    · simp only [List.length_cons]
      exact Nat.lt_succ_of_le (List.dropWhile_sublist wsChar).length_le
    · simp

/-- The slug transform as the claim words it, reading "trim
leading/trailing hyphens" as removing every leading and every trailing
hyphen. -/
def slugSpecTrimAll (s : String) : String :=
  String.mk ((((stripNonWord (collapseWs (s.data.map asciiLower))).dropWhile
    (fun c => c == '-')).reverse.dropWhile (fun c => c == '-')).reverse)

section ClaimC9

theorem collapseWs_eq_collapseSpec : ∀ l : List Char, collapseWs l = collapseSpec l := by
  intro l
  induction l with
  | nil => simp [collapseWs, collapseSpec]
  | cons c tl ih =>
      cases tl with
      | nil =>
          by_cases hc : wsChar c <;>
            simp [collapseWs, collapseSpec, hc, List.dropWhile]
      | cons d rest =>
          by_cases hc : wsChar c
          · by_cases hd : wsChar d
            · rw [show collapseWs (c :: d :: rest) = collapseWs (d :: rest) by
                simp [collapseWs, hc, hd]]
              rw [ih]
              simp [collapseSpec, hc, hd, List.dropWhile]
            · rw [show collapseWs (c :: d :: rest) = '-' :: collapseWs (d :: rest) by
                simp [collapseWs, hc, hd]]
              rw [ih]
              simp [collapseSpec, hc, hd, List.dropWhile]
          · rw [show collapseWs (c :: d :: rest) = c :: collapseWs (d :: rest) by
              simp [collapseWs, hc]]
            rw [ih]
            simp [collapseSpec, hc]

theorem mem_trimLeadHyphen {c : Char} {l : List Char}
    (h : c ∈ trimLeadHyphen l) : c ∈ l := by
  cases l with
  | nil => simp [trimLeadHyphen] at h
  | cons d rest =>
      by_cases hd : d = '-'
      · rw [trimLeadHyphen, if_pos hd] at h
        exact List.mem_cons_of_mem d h
      · rwa [trimLeadHyphen, if_neg hd] at h

theorem mem_trimTrailHyphen {c : Char} {l : List Char}
    (h : c ∈ trimTrailHyphen l) : c ∈ l := by
  unfold trimTrailHyphen at h
  exact List.mem_reverse.mp (mem_trimLeadHyphen (List.mem_reverse.mp h))

/-- C9: the claim reads the final step as trimming all leading and
trailing hyphens, but the regex `/^-|-$/g` anchors only once at each end,
so it removes at most one hyphen on each side: on the input `"--ab"` the
code produces `"-ab"` (a slug still starting with a hyphen), where the
claim's reading produces `"ab"`. -/
theorem clubNameToSlug_counterexample :
    clubNameToSlug "--ab" = "-ab" ∧
    slugSpecTrimAll "--ab" = "ab" ∧
    clubNameToSlug "--ab" ≠ slugSpecTrimAll "--ab" := by
  decide

/-- C9 (amended): the slug transform lowercases the name (ASCII),
replaces each maximal run of whitespace with a single hyphen (proved
against an independent `dropWhile`-based formulation of run collapsing),
strips every character that is not a word character or a hyphen — so
every character of the output is a word character or a hyphen — and
finally removes at most ONE leading and at most ONE trailing hyphen;
`clubNameToSlug "West Bromwich Albion" = "west-bromwich-albion"`. -/
theorem clubNameToSlug_amended :
    clubNameToSlug "West Bromwich Albion" = "west-bromwich-albion" ∧
    (∀ s : String, (clubNameToSlug s).data =
      trimTrailHyphen (trimLeadHyphen
        (stripNonWord (collapseSpec (s.data.map asciiLower))))) ∧
    (∀ (s : String) (c : Char), c ∈ (clubNameToSlug s).data →
      wordChar c = true ∨ c = '-') := by
  refine ⟨by decide, ?_, ?_⟩
  · intro s
    rw [show (clubNameToSlug s).data = trimTrailHyphen (trimLeadHyphen
      (stripNonWord (collapseWs (s.data.map asciiLower)))) from rfl]
    rw [collapseWs_eq_collapseSpec]
  · intro s c hc
    have h1 := mem_trimLeadHyphen (mem_trimTrailHyphen hc)
    have h2 := List.mem_filter.mp h1
    have h3 := h2.2
    rcases Bool.or_eq_true_iff.mp h3 with hw | hh
    · exact Or.inl hw
    · exact Or.inr (by simpa using hh)

/-- Witness for C9 (amended), at the spec's example name and the
two-word name `"a b"`: the example slug holds, the first character of the
example slug is a word character, and the pipeline equality holds at
`"a b"`. -/
theorem clubNameToSlug_amended_witness :
    clubNameToSlug "West Bromwich Albion" = "west-bromwich-albion" ∧
    (wordChar 'w' = true ∨ 'w' = '-') ∧
    (clubNameToSlug "a b").data =
      trimTrailHyphen (trimLeadHyphen (stripNonWord
        (collapseSpec (("a b" : String).data.map asciiLower)))) :=
  ⟨clubNameToSlug_amended.1,
   clubNameToSlug_amended.2.2 "West Bromwich Albion" 'w' (by decide),
   clubNameToSlug_amended.2.1 "a b"⟩

end ClaimC9

/-- `clubName.toLowerCase()`, ASCII fragment. -/
def lowerString (s : String) : String := String.mk (s.data.map asciiLower)

/-- `clubsApi.getAllClubs` from `src/unnamed/part_005`, with the network
modelled by the response value the fetch would deliver: read the cache at
key `"all-clubs"`; if the value that comes back is truthy, return it
without fetching; otherwise fetch, store the response, and return it.
The result is the returned value, the cache afterwards, and a flag that
is `true` exactly when a fetch was issued. -/
def getAllClubs (m : CacheMap String) (now fetchNow : ℤ) (response : JsVal) :
    JsVal × CacheMap String × Bool :=
  let r := getCachedData m now "all-clubs"
  if r.1.truthy then (r.1, r.2, false)
  else (response, setCachedData r.2 fetchNow "all-clubs" response, true)

/-- `clubsApi.getClubByName` from `src/unnamed/part_005`: same shape as
`getAllClubs`, at the key `"club-" + clubName.toLowerCase()`. -/
def getClubByName (m : CacheMap String) (now fetchNow : ℤ)
    (clubName : String) (response : JsVal) :
    JsVal × CacheMap String × Bool :=
  let key := "club-" ++ lowerString clubName
  let r := getCachedData m now key
  if r.1.truthy then (r.1, r.2, false)
  else (response, setCachedData r.2 fetchNow key response, true)

section ClaimC10

open CacheMap

/-- C10 (confirmed, implicit): the facade's hit check is `if (cached)
return cached`, a truthiness test on the value `getCachedData` returned —
so a present, unexpired cache entry whose stored payload is falsy
(`null`, `0`, `""`, `false`) is treated as a miss: the facade issues a
new fetch and returns the fresh response, exactly as it does when the
entry is absent.  This holds for both `getAllClubs` and
`getClubByName`. -/
theorem falsy_cached_value_is_miss (m : CacheMap String)
    (now fetchNow : ℤ) (response : JsVal) (name : String) :
    (∀ e : Entry, mapGet m "all-clubs" = some e →
      now - e.timestamp < CACHE_TIME → e.data.truthy = false →
      (getAllClubs m now fetchNow response).1 = response ∧
      (getAllClubs m now fetchNow response).2.2 = true ∧
      (m.WellFormed →
        (getAllClubs m now fetchNow response).1 =
          (getAllClubs (mapDelete m "all-clubs") now fetchNow response).1 ∧
        (getAllClubs m now fetchNow response).2.2 =
          (getAllClubs (mapDelete m "all-clubs") now fetchNow response).2.2)) ∧
    (∀ e : Entry, mapGet m ("club-" ++ lowerString name) = some e →
      now - e.timestamp < CACHE_TIME → e.data.truthy = false →
      (getClubByName m now fetchNow name response).1 = response ∧
      (getClubByName m now fetchNow name response).2.2 = true) := by
  constructor
  · intro e hget hfresh hfalsy
    have hr : getCachedData m now "all-clubs" = (e.data, m) :=
      getCachedData_fresh hget hfresh
    refine ⟨?_, ?_, ?_⟩
    · simp [getAllClubs, hr, hfalsy]
    · simp [getAllClubs, hr, hfalsy]
    · intro hwf
      have hmiss : mapGet (mapDelete m "all-clubs") "all-clubs" = none :=
        mapGet_mapDelete_self m "all-clubs" hwf
      have hr' : getCachedData (mapDelete m "all-clubs") now "all-clubs" =
          (JsVal.jsnull, mapDelete m "all-clubs") :=
        getCachedData_miss hmiss
      constructor
      · simp [getAllClubs, hr, hr', hfalsy,
          show JsVal.truthy JsVal.jsnull = false from rfl]
      · simp [getAllClubs, hr, hr', hfalsy,
          show JsVal.truthy JsVal.jsnull = false from rfl]
  · intro e hget hfresh hfalsy
    have hr : getCachedData m now ("club-" ++ lowerString name) =
        (e.data, m) := getCachedData_fresh hget hfresh
    constructor
    · simp [getClubByName, hr, hfalsy]
    · simp [getClubByName, hr, hfalsy]

/-- Witness for C10, on a cache holding `0` (falsy) at `"all-clubs"` and
`""` (falsy) at `"club-leeds"`, both unexpired at read time `1`: both
facade calls return the fresh response and report a fetch, and for
`getAllClubs` the outcome matches the one on the cache with the entry
removed. -/
theorem falsy_cached_value_is_miss_witness :
    (getAllClubs [("all-clubs", ⟨JsVal.num 0, 0⟩),
      ("club-leeds", ⟨JsVal.str "", 0⟩)] 1 2 (JsVal.obj 9)).1 =
        JsVal.obj 9 ∧
    (getAllClubs [("all-clubs", ⟨JsVal.num 0, 0⟩),
      ("club-leeds", ⟨JsVal.str "", 0⟩)] 1 2 (JsVal.obj 9)).2.2 = true ∧
    (getClubByName [("all-clubs", ⟨JsVal.num 0, 0⟩),
      ("club-leeds", ⟨JsVal.str "", 0⟩)] 1 2 "Leeds" (JsVal.obj 9)).1 =
        JsVal.obj 9 ∧
    (getClubByName [("all-clubs", ⟨JsVal.num 0, 0⟩),
      ("club-leeds", ⟨JsVal.str "", 0⟩)] 1 2 "Leeds" (JsVal.obj 9)).2.2 =
        true := by
  refine ⟨?_, ?_, ?_, ?_⟩
  · exact ((falsy_cached_value_is_miss _ 1 2 (JsVal.obj 9) "Leeds").1
      ⟨JsVal.num 0, 0⟩ (by decide) (by decide) (by decide)).1
  · exact ((falsy_cached_value_is_miss _ 1 2 (JsVal.obj 9) "Leeds").1
      ⟨JsVal.num 0, 0⟩ (by decide) (by decide) (by decide)).2.1
  · exact ((falsy_cached_value_is_miss _ 1 2 (JsVal.obj 9) "Leeds").2
      ⟨JsVal.str "", 0⟩ (by decide) (by decide) (by decide)).1
  · exact ((falsy_cached_value_is_miss _ 1 2 (JsVal.obj 9) "Leeds").2
      ⟨JsVal.str "", 0⟩ (by decide) (by decide) (by decide)).2

end ClaimC10

end ClubsFinance
